import Mathlib

/-!
Verification of the Structured-Product-Pricing-Python repository.

Shallow embedding of the payoff functions, discretization schemes, pricing
engine helpers and volatility-surface code that the specification talks
about.  Arrays of floats are modelled as functions into a linear ordered
field (or `ℝ` where `sqrt`/`exp`/`log` are involved), numpy column vectors
as `Fin n → ℝ`, and fallible code as `Except`.
-/

namespace Pricing

/-! ### Option payoffs (src/Kernel/Products/Options)

A price path is a `List α`; `path[-1]` is the last element and `np.max(path)`
the maximum entry (both only meaningful on non-empty paths, numpy raises on
empty input; we return the junk value `0` there). -/

variable {α : Type} [LinearOrderedField α]

/-- `np.max(path)` for a 1-D array: maximum entry, junk `0` on the empty list. -/
def npMax : List α → α
  | [] => 0
  | x :: xs => xs.foldl max x

/-- `path[-1]`: last element of the path, junk `0` on the empty list. -/
def lastPrice (path : List α) : α := path.getLastD 0

/-- `EuropeanCallOption.payoff`: `max(0, path[-1] - strike)`. -/
def europeanCallPayoff (strike : α) (path : List α) : α :=
  max 0 (lastPrice path - strike)

/-- `UpBarrierOption.is_barrier_breached`: `np.max(path) > barrier`. -/
def isUpBarrierBreached (barrier : α) (path : List α) : Prop :=
  npMax path > barrier

instance (barrier : α) (path : List α) : Decidable (isUpBarrierBreached barrier path) :=
  inferInstanceAs (Decidable (npMax path > barrier))

/-- `UpAndOutCallOption.payoff`: `0` if the barrier is breached, else the call payoff. -/
def upAndOutCallPayoff (strike barrier : α) (path : List α) : α :=
  if isUpBarrierBreached barrier path then 0
  else max 0 (lastPrice path - strike)

/-- `UpAndInCallOption.payoff`: the call payoff if the barrier is breached, else `0`. -/
def upAndInCallPayoff (strike barrier : α) (path : List α) : α :=
  if isUpBarrierBreached barrier path then max 0 (lastPrice path - strike)
  else 0

/-! ### Coupon bisection (src/kernel/models/pricing_engines/callable_mc_pricing_engine_bis.py)

`CallableMCPricingEngineBis.get_coupon` does a bisection over the coupon
rate.  Each iteration writes the midpoint into `derivative.coupon_rate` and
reprices; we abstract the Monte-Carlo repricing as a function
`price : α → α` from the coupon rate written into the derivative to the
price, and thread the mutated `coupon_rate` field through the recursion.
The result is the pair (returned coupon, final `coupon_rate` field). -/

/-- The bisection loop of `get_coupon`: arguments are the remaining
iteration budget, `lower_bound`, `upper_bound` and the current value of the
mutated `derivative.coupon_rate` field.  When the budget is exhausted the
code returns the last midpoint tried, which is exactly the current value of
the `coupon_rate` field. -/
def getCouponLoop (price : α → α) (eps target : α) :
    ℕ → α → α → α → α × α
  | 0, _, _, c => (c, c)
  | fuel + 1, lo, hi, _ =>
      let mid := (lo + hi) / 2
      if |price mid - target| < eps then (mid, mid)
      else if price mid < target then getCouponLoop price eps target fuel mid hi mid
      else getCouponLoop price eps target fuel lo mid mid

/-- `get_coupon` with its default arguments `epsilon = 1e-2`,
`max_iter = 25`, `target_price = 100`, bounds `[0, 50]`; `c0` is the value
of `derivative.coupon_rate` before the call.  First component of the state
pair: the returned coupon. -/
def getCoupon (price : α → α) (c0 : α) : α :=
  (getCouponLoop price (1 / 100) 100 25 0 50 c0).1

/-- The value left in `derivative.coupon_rate` after `get_coupon` returns. -/
def getCouponFinalRate (price : α → α) (c0 : α) : α :=
  (getCouponLoop price (1 / 100) 100 25 0 50 c0).2

end Pricing

namespace Pricing

/-! Helper lemmas about the bisection loop. -/

theorem getCouponLoop_succ {α : Type} [LinearOrderedField α]
    (price : α → α) (eps target : α) (fuel : ℕ) (lo hi c : α) :
    getCouponLoop price eps target (fuel + 1) lo hi c =
      if |price ((lo + hi) / 2) - target| < eps
        then ((lo + hi) / 2, (lo + hi) / 2)
      else if price ((lo + hi) / 2) < target
        then getCouponLoop price eps target fuel ((lo + hi) / 2) hi ((lo + hi) / 2)
      else getCouponLoop price eps target fuel lo ((lo + hi) / 2) ((lo + hi) / 2) :=
  rfl

theorem getCouponLoop_fst_eq_snd {α : Type} [LinearOrderedField α]
    (price : α → α) (eps target : α) :
    ∀ (fuel : ℕ) (lo hi c : α),
      (getCouponLoop price eps target fuel lo hi c).1 =
        (getCouponLoop price eps target fuel lo hi c).2 := by
  intro fuel
  induction fuel with
  | zero => intro lo hi c; rfl
  | succ n ih =>
      intro lo hi c
      simp only [getCouponLoop]
      split
      · rfl
      · split
        · exact ih _ _ _
        · exact ih _ _ _

theorem getCouponLoop_mem_Icc {α : Type} [LinearOrderedField α]
    (price : α → α) (eps target : α) :
    ∀ (fuel : ℕ) (lo hi c : α), 0 ≤ lo → lo ≤ hi → hi ≤ 50 →
      0 ≤ c → c ≤ 50 →
      0 ≤ (getCouponLoop price eps target fuel lo hi c).1 ∧
        (getCouponLoop price eps target fuel lo hi c).1 ≤ 50 := by
  intro fuel
  induction fuel with
  | zero => intro lo hi c _ _ _ hc0 hc50; exact ⟨hc0, hc50⟩
  | succ n ih =>
      intro lo hi c h0 hlh h50 _ _
      have hmid0 : 0 ≤ (lo + hi) / 2 := by linarith
      have hmid50 : (lo + hi) / 2 ≤ 50 := by linarith
      have hlomid : lo ≤ (lo + hi) / 2 := by linarith
      have hmidhi : (lo + hi) / 2 ≤ hi := by linarith
      simp only [getCouponLoop]
      split
      · exact ⟨hmid0, hmid50⟩
      · split
        · exact ih _ _ _ hmid0 hmidhi h50 hmid0 hmid50
        · exact ih _ _ _ h0 hlomid hmid50 hmid0 hmid50

end Pricing

namespace Pricing

theorem getCoupon_mem_Icc {α : Type} [LinearOrderedField α]
    (price : α → α) (c0 : α) :
    0 ≤ getCoupon price c0 ∧ getCoupon price c0 ≤ 50 := by
  unfold getCoupon
  show 0 ≤ (getCouponLoop price (1/100) 100 (24+1) 0 50 c0).1 ∧ _
  rw [getCouponLoop_succ]
  have h25 : ((0 : α) + 50) / 2 = 25 := by norm_num
  split
  · rw [h25]; constructor <;> norm_num
  · split
    · exact getCouponLoop_mem_Icc price _ _ 24 _ _ _ (by norm_num) (by norm_num)
        (by norm_num) (by norm_num) (by norm_num)
    · exact getCouponLoop_mem_Icc price _ _ 24 _ _ _ (by norm_num) (by norm_num)
        (by norm_num) (by norm_num) (by norm_num)

end Pricing

/-- C3: for every price path and every strike `K` and barrier `B` with
`B > K`, the up-and-in call payoff plus the up-and-out call payoff on that
path equals the European call payoff on that path, exactly: the two barrier
payoffs partition every path. -/
theorem upAndIn_add_upAndOut_eq_europeanCall {α : Type} [LinearOrderedField α]
    (strike barrier : α) (path : List α)
    (hBK : strike < barrier) (hne : path ≠ []) :
    Pricing.upAndInCallPayoff strike barrier path
      + Pricing.upAndOutCallPayoff strike barrier path
      = Pricing.europeanCallPayoff strike path := by
  unfold Pricing.upAndInCallPayoff Pricing.upAndOutCallPayoff
    Pricing.europeanCallPayoff
  by_cases h : Pricing.isUpBarrierBreached barrier path <;> simp [h]

/-- Witness for C3: the spec's own example, path `[90, 95, 110, 115]`,
strike `100`, barrier `110`: up-and-in pays `15`, up-and-out pays `0`, the
sum is the vanilla call payoff `15`. -/
theorem upAndIn_add_upAndOut_eq_europeanCall_witness :
    (100 : ℚ) < 110 ∧ ([(90 : ℚ), 95, 110, 115] ≠ []) ∧
    Pricing.upAndInCallPayoff (100 : ℚ) 110 [90, 95, 110, 115] = 15 ∧
    Pricing.upAndOutCallPayoff (100 : ℚ) 110 [90, 95, 110, 115] = 0 ∧
    Pricing.upAndInCallPayoff (100 : ℚ) 110 [90, 95, 110, 115]
      + Pricing.upAndOutCallPayoff (100 : ℚ) 110 [90, 95, 110, 115]
      = Pricing.europeanCallPayoff (100 : ℚ) [90, 95, 110, 115] :=
  ⟨by norm_num, by simp,
    by
      norm_num [Pricing.upAndInCallPayoff, Pricing.isUpBarrierBreached,
        Pricing.npMax, Pricing.lastPrice],
    by
      norm_num [Pricing.upAndOutCallPayoff, Pricing.isUpBarrierBreached,
        Pricing.npMax, Pricing.lastPrice],
    upAndIn_add_upAndOut_eq_europeanCall 100 110 [90, 95, 110, 115]
      (by norm_num) (by simp)⟩

/-- C6: `get_coupon` bisects the coupon rate inside `[0, 50]` with a budget
of 25 iterations; the returned coupon always lies in `[0, 50]`, and at any
iteration, as soon as the repriced value at the current midpoint is within
`1e-2` of the target `100`, that midpoint is returned at once (in
particular, at the top-level call whose first midpoint is `25`). -/
theorem getCoupon_bisection_spec {α : Type} [LinearOrderedField α]
    (price : α → α) (c0 : α) :
    (0 ≤ Pricing.getCoupon price c0 ∧ Pricing.getCoupon price c0 ≤ 50) ∧
    (∀ (fuel : ℕ) (lo hi c : α), |price ((lo + hi) / 2) - 100| < 1 / 100 →
        Pricing.getCouponLoop price (1 / 100) 100 (fuel + 1) lo hi c
          = ((lo + hi) / 2, (lo + hi) / 2)) ∧
    (|price 25 - 100| < 1 / 100 → Pricing.getCoupon price c0 = 25) := by
  refine ⟨Pricing.getCoupon_mem_Icc price c0, ?_, ?_⟩
  · intro fuel lo hi c h
    rw [Pricing.getCouponLoop_succ, if_pos h]
  · intro h
    unfold Pricing.getCoupon
    show (Pricing.getCouponLoop price (1/100) 100 (24+1) 0 50 c0).1 = 25
    rw [Pricing.getCouponLoop_succ,
      show ((0 : α) + 50) / 2 = 25 by norm_num, if_pos h]

/-- Witness for C6: with a repricing function constantly equal to the
target `100`, the very first midpoint `25` is accepted and returned, and it
lies in `[0, 50]`. -/
theorem getCoupon_bisection_spec_witness :
    (0 ≤ Pricing.getCoupon (fun _ => (100 : ℚ)) 7 ∧
      Pricing.getCoupon (fun _ => (100 : ℚ)) 7 ≤ 50) ∧
    Pricing.getCoupon (fun _ => (100 : ℚ)) 7 = 25 := by
  obtain ⟨hmem, _, hstop⟩ := getCoupon_bisection_spec (fun _ => (100 : ℚ)) 7
  exact ⟨hmem, hstop (by norm_num)⟩

/-- C10: `get_coupon` mutates the derivative in place: after the call the
`coupon_rate` field equals the last midpoint tried, which is exactly the
returned value, and it is not restored to its pre-call value (here `7`,
left at `25`). -/
theorem getCoupon_leaves_coupon_rate_mutated {α : Type} [LinearOrderedField α] :
    (∀ (price : α → α) (c0 : α),
        Pricing.getCouponFinalRate price c0 = Pricing.getCoupon price c0) ∧
    Pricing.getCouponFinalRate (fun _ => (100 : α)) 7 = 25 ∧
    Pricing.getCouponFinalRate (fun _ => (100 : α)) 7 ≠ 7 := by
  have key : ∀ (price : α → α) (c0 : α),
      Pricing.getCouponFinalRate price c0 = Pricing.getCoupon price c0 := by
    intro price c0
    exact (Pricing.getCouponLoop_fst_eq_snd price _ _ 25 0 50 c0).symm
  have hval : Pricing.getCouponFinalRate (fun _ => (100 : α)) 7 = 25 := by
    unfold Pricing.getCouponFinalRate
    show (Pricing.getCouponLoop (fun _ => (100:α)) (1/100) 100 (24+1) 0 50 7).2 = 25
    rw [Pricing.getCouponLoop_succ]
    norm_num
  refine ⟨key, hval, ?_⟩
  rw [hval]; norm_num

namespace Heston

/-! ### Heston Euler scheme
(src/kernel/models/discritization_schemes/heston_euler_scheme.py and
src/kernel/models/stochastic_processes/heston_process.py)

`HestonProcess` carries the process parameters; `dt = T / nb_steps` as set
by `StochasticProcess.__init__`.  A column `V[:, i]` of the numpy variance
array is a function `Fin n → ℝ` (`n` = `nb_paths`).

The scheme's update reads `np.max(V[:, i - 1], 0)`.  The second positional
argument of `np.max` is the AXIS, so this expression is the maximum of the
previous variance column across all paths (a scalar), not the elementwise
`np.maximum(V[:, i - 1], 0)` floor at zero. -/

structure HestonProcess where
  S0 : ℝ
  T : ℝ
  nb_steps : ℕ
  drift : ℝ
  theta : ℝ
  kappa : ℝ
  ksi : ℝ
  rho : ℝ

noncomputable def HestonProcess.dt (proc : HestonProcess) : ℝ := proc.T / proc.nb_steps

/-- `np.max(col, 0)` on a 1-D column of length `n`: the maximum over the
axis-0 entries (junk `0` for `n = 0`, where numpy raises). -/
noncomputable def colMax {n : ℕ} (v : Fin n → ℝ) : ℝ := Pricing.npMax (List.ofFn v)

/-- The variance recursion of `HestonEulerScheme.simulate_paths`:
`V[:, 0] = theta` and
`V[:, i] = V[:, i-1] + kappa*(theta - np.max(V[:, i-1], 0))*dt
           + ksi*sqrt(np.max(V[:, i-1], 0))*W2[:, i-1]`. -/
noncomputable def simulateV (proc : HestonProcess) {n : ℕ}
    (W2 : Fin n → ℕ → ℝ) : ℕ → Fin n → ℝ
  | 0 => fun _ => proc.theta
  | i + 1 => fun p =>
      simulateV proc W2 i p
        + proc.kappa * (proc.theta - colMax (simulateV proc W2 i)) * proc.dt
        + proc.ksi * Real.sqrt (colMax (simulateV proc W2 i)) * W2 p i

/-- The asset recursion of `HestonEulerScheme.simulate_paths`:
`S[:, 0] = S0` and
`S[:, i] = S[:, i-1] * exp((drift - 0.5*np.max(V[:, i-1], 0))*dt
           + sqrt(np.max(V[:, i-1], 0))*W1[:, i-1])`. -/
noncomputable def simulateS (proc : HestonProcess) {n : ℕ}
    (W1 W2 : Fin n → ℕ → ℝ) : ℕ → Fin n → ℝ
  | 0 => fun _ => proc.S0
  | i + 1 => fun p =>
      simulateS proc W1 W2 i p
        * Real.exp ((proc.drift - 0.5 * colMax (simulateV proc W2 i)) * proc.dt
            + Real.sqrt (colMax (simulateV proc W2 i)) * W1 p i)

/-- The variance recursion as the spec words it (full-truncation with the
ELEMENTWISE, per-path floor `max(v_t, 0)`):
`v_{t+1} = v_t + kappa*(theta - max(v_t,0))*dt + ksi*sqrt(max(v_t,0))*dW2`.
Stated for comparison with `simulateV`, which embeds the source. -/
noncomputable def simulateVSpecFloor (proc : HestonProcess) {n : ℕ}
    (W2 : Fin n → ℕ → ℝ) : ℕ → Fin n → ℝ
  | 0 => fun _ => proc.theta
  | i + 1 => fun p =>
      simulateVSpecFloor proc W2 i p
        + proc.kappa * (proc.theta - max (simulateVSpecFloor proc W2 i p) 0) * proc.dt
        + proc.ksi * Real.sqrt (max (simulateVSpecFloor proc W2 i p) 0) * W2 p i

theorem simulateV_zero (proc : HestonProcess) {n : ℕ}
    (W2 : Fin n → ℕ → ℝ) (p : Fin n) : simulateV proc W2 0 p = proc.theta := rfl

theorem simulateV_succ (proc : HestonProcess) {n : ℕ}
    (W2 : Fin n → ℕ → ℝ) (i : ℕ) (p : Fin n) :
    simulateV proc W2 (i + 1) p =
      simulateV proc W2 i p
        + proc.kappa * (proc.theta - colMax (simulateV proc W2 i)) * proc.dt
        + proc.ksi * Real.sqrt (colMax (simulateV proc W2 i)) * W2 p i := rfl

theorem simulateVSpecFloor_succ (proc : HestonProcess) {n : ℕ}
    (W2 : Fin n → ℕ → ℝ) (i : ℕ) (p : Fin n) :
    simulateVSpecFloor proc W2 (i + 1) p =
      simulateVSpecFloor proc W2 i p
        + proc.kappa * (proc.theta - max (simulateVSpecFloor proc W2 i p) 0) * proc.dt
        + proc.ksi * Real.sqrt (max (simulateVSpecFloor proc W2 i p) 0) * W2 p i := rfl

theorem colMax_one (v : Fin 1 → ℝ) : colMax v = v 0 := by
  simp [colMax, Pricing.npMax, List.ofFn_succ]

theorem colMax_two (v : Fin 2 → ℝ) : colMax v = max (v 0) (v 1) := by
  simp [colMax, Pricing.npMax, List.ofFn_succ]

end Heston

namespace Heston

/-- Concrete Heston parameters for the variance counterexample:
`theta = 1`, `kappa = 2`, `ksi = 1`, one step of size `dt = 1`. -/
noncomputable def procA : HestonProcess :=
  { S0 := 100, T := 1, nb_steps := 1, drift := 0, theta := 1,
    kappa := 2, ksi := 1, rho := 0 }

/-- A single-path variance increment stream: `W2[0, j] = -2` for every step. -/
def W2A : Fin 1 → ℕ → ℝ := fun _ _ => -2

theorem procA_dt : procA.dt = 1 := by
  norm_num [HestonProcess.dt, procA]

/-- On `procA` with increment `-2` the stored variance at time `1` is `-1`. -/
theorem simulateV_procA_one : simulateV procA W2A 1 0 = -1 := by
  have h1 : simulateV procA W2A 1 0 =
      simulateV procA W2A 0 0
        + procA.kappa * (procA.theta - colMax (simulateV procA W2A 0)) * procA.dt
        + procA.ksi * Real.sqrt (colMax (simulateV procA W2A 0)) * W2A 0 0 :=
    simulateV_succ procA W2A 0 0
  rw [h1, colMax_one, simulateV_zero, procA_dt]
  norm_num [procA, W2A, Real.sqrt_one]

/-- Concrete Heston parameters for the axis-max divergence: `theta = 1`,
`kappa = 0`, `ksi = 1`, two paths, two steps of size `dt = 1`. -/
noncomputable def procB : HestonProcess :=
  { S0 := 100, T := 2, nb_steps := 2, drift := 0, theta := 1,
    kappa := 0, ksi := 1, rho := 0 }

/-- Two-path variance increments: path `0` gets `(3, 1, 1, ...)`, path `1`
gets `(-2, 1, 1, ...)`. -/
noncomputable def W2B : Fin 2 → ℕ → ℝ :=
  ![fun i => if i = 0 then 3 else 1, fun i => if i = 0 then -2 else 1]

theorem procB_dt : procB.dt = 1 := by
  norm_num [HestonProcess.dt, procB]

theorem simulateV_procB_zero (p : Fin 2) : simulateV procB W2B 0 p = 1 := by
  rw [simulateV_zero]; norm_num [procB]

theorem colMax_procB_zero : colMax (simulateV procB W2B 0) = 1 := by
  rw [colMax_two, simulateV_procB_zero, simulateV_procB_zero, max_self]

theorem simulateV_procB_one_zero : simulateV procB W2B 1 0 = 4 := by
  have h1 : simulateV procB W2B 1 0 =
      simulateV procB W2B 0 0
        + procB.kappa * (procB.theta - colMax (simulateV procB W2B 0)) * procB.dt
        + procB.ksi * Real.sqrt (colMax (simulateV procB W2B 0)) * W2B 0 0 :=
    simulateV_succ procB W2B 0 0
  rw [h1, colMax_procB_zero, simulateV_procB_zero, procB_dt]
  norm_num [procB, W2B, Real.sqrt_one]

theorem simulateV_procB_one_one : simulateV procB W2B 1 1 = -1 := by
  have h1 : simulateV procB W2B 1 1 =
      simulateV procB W2B 0 1
        + procB.kappa * (procB.theta - colMax (simulateV procB W2B 0)) * procB.dt
        + procB.ksi * Real.sqrt (colMax (simulateV procB W2B 0)) * W2B 1 0 :=
    simulateV_succ procB W2B 0 1
  rw [h1, colMax_procB_zero, simulateV_procB_zero, procB_dt]
  norm_num [procB, W2B, Real.sqrt_one]

theorem colMax_procB_one : colMax (simulateV procB W2B 1) = 4 := by
  rw [colMax_two, simulateV_procB_one_zero, simulateV_procB_one_one,
    max_eq_left (by norm_num : (-1 : ℝ) ≤ 4)]

theorem sqrt_four : Real.sqrt 4 = 2 := by
  rw [show (4 : ℝ) = 2 ^ 2 by norm_num, Real.sqrt_sq (by norm_num : (0:ℝ) ≤ 2)]

end Heston

namespace Heston

/-- Code value at the second step of path `1`: the update substitutes the
cross-path maximum `4` (from path `0`), so `V[1,2] = -1 + sqrt(4)*1 = 1`. -/
theorem simulateV_procB_two_one : simulateV procB W2B 2 1 = 1 := by
  have h1 : simulateV procB W2B 2 1 =
      simulateV procB W2B 1 1
        + procB.kappa * (procB.theta - colMax (simulateV procB W2B 1)) * procB.dt
        + procB.ksi * Real.sqrt (colMax (simulateV procB W2B 1)) * W2B 1 1 :=
    simulateV_succ procB W2B 1 1
  rw [h1, colMax_procB_one, simulateV_procB_one_one, procB_dt, sqrt_four]
  norm_num [procB, W2B]

theorem simulateVSpecFloor_procB_one_one : simulateVSpecFloor procB W2B 1 1 = -1 := by
  have h1 : simulateVSpecFloor procB W2B 1 1 =
      simulateVSpecFloor procB W2B 0 1
        + procB.kappa * (procB.theta - max (simulateVSpecFloor procB W2B 0 1) 0) * procB.dt
        + procB.ksi * Real.sqrt (max (simulateVSpecFloor procB W2B 0 1) 0) * W2B 1 0 :=
    simulateVSpecFloor_succ procB W2B 0 1
  have h0 : simulateVSpecFloor procB W2B 0 1 = 1 := by
    show procB.theta = 1
    norm_num [procB]
  rw [h1, h0, procB_dt, max_eq_left (by norm_num : (0:ℝ) ≤ 1)]
  norm_num [procB, W2B, Real.sqrt_one]

/-- The spec's elementwise full-truncation formula at the second step of
path `1`: the floored variance is `max(-1, 0) = 0`, so the value stays `-1`. -/
theorem simulateVSpecFloor_procB_two_one : simulateVSpecFloor procB W2B 2 1 = -1 := by
  have h1 : simulateVSpecFloor procB W2B 2 1 =
      simulateVSpecFloor procB W2B 1 1
        + procB.kappa * (procB.theta - max (simulateVSpecFloor procB W2B 1 1) 0) * procB.dt
        + procB.ksi * Real.sqrt (max (simulateVSpecFloor procB W2B 1 1) 0) * W2B 1 1 :=
    simulateVSpecFloor_succ procB W2B 1 1
  rw [h1, simulateVSpecFloor_procB_one_one, procB_dt,
    max_eq_right (by norm_num : (-1:ℝ) ≤ 0)]
  norm_num [procB, W2B, Real.sqrt_zero]

end Heston

/-- C1 counterexample: with `theta = 1`, `kappa = 2`, `ksi = 1`, one path,
one step of size `1` and variance increment `W2 = -2`, the returned
variance array contains the negative entry `V[0, 1] = -1`: the full-
truncation scheme stores the raw Euler update without flooring it (and the
`np.max(..., 0)` in the code is an axis-0 maximum, not a floor). -/
theorem hestonVariance_negative_entry :
    Heston.simulateV Heston.procA Heston.W2A 1 0 < 0 := by
  rw [Heston.simulateV_procA_one]; norm_num

/-- C1 (amended): the variance array may contain negative entries at later
time steps; what holds is that the initial variance column `V[:, 0] = theta`
is non-negative whenever `theta ≥ 0`. -/
theorem hestonVariance_initial_column_nonneg
    (proc : Heston.HestonProcess) {n : ℕ} (W2 : Fin n → ℕ → ℝ) (p : Fin n)
    (h : 0 ≤ proc.theta) :
    0 ≤ Heston.simulateV proc W2 0 p := by
  rw [Heston.simulateV_zero]; exact h

/-- Witness for the amended C1, at the concrete counterexample parameters. -/
theorem hestonVariance_initial_column_nonneg_witness :
    (0 : ℝ) ≤ Heston.procA.theta ∧
    0 ≤ Heston.simulateV Heston.procA Heston.W2A 0 0 :=
  ⟨by norm_num [Heston.procA],
    hestonVariance_initial_column_nonneg Heston.procA Heston.W2A 0
      (by norm_num [Heston.procA])⟩

/-- C2: the code's variance update substitutes `np.max(V[:, i-1], 0)` — an
axis-0 maximum of the previous variance column across all paths, with no
floor at zero — where the spec prescribes the elementwise per-path floor
`max(v_t, 0)`.  With two paths whose variances diverge (`4` and `-1` after
one step), the code's second step on path `1` uses `sqrt(4) = 2` and yields
`1`, while the spec's elementwise full-truncation formula uses
`sqrt(max(-1, 0)) = 0` and yields `-1`. -/
theorem hestonVariance_axis_max_vs_elementwise_floor :
    Heston.simulateV Heston.procB Heston.W2B 2 1 = 1 ∧
    Heston.simulateVSpecFloor Heston.procB Heston.W2B 2 1 = -1 ∧
    Heston.simulateV Heston.procB Heston.W2B 2 1 ≠
      Heston.simulateVSpecFloor Heston.procB Heston.W2B 2 1 := by
  refine ⟨Heston.simulateV_procB_two_one, Heston.simulateVSpecFloor_procB_two_one, ?_⟩
  rw [Heston.simulateV_procB_two_one, Heston.simulateVSpecFloor_procB_two_one]
  norm_num

namespace MarketData

/-! ### Market and rho (src/kernel/market_data/market.py,
src/kernel/models/pricing_engines/mc_pricing_engine.py)

The `Market`'s calibrated rate curve is a function maturity → rate; the
input files (and `RateCurve.get_rate`) are in percent, and
`Market.get_rate` divides by 100. -/

structure Market where
  rate_curve_pct : ℝ → ℝ

/-- `Market.get_rate`: `self.rate_curve.get_rate(maturity) / 100`. -/
noncomputable def Market.get_rate (m : Market) (maturity : ℝ) : ℝ :=
  m.rate_curve_pct maturity / 100

/-- Modelled from the spec: `bump_flat_yield_curve` is called by
`MCPricingEngine.get_rho` but its definition is not among the source
files.  Per the spec (§3 Market: "'bumped' copies (shifted curve/vol) are
constructed fresh for sensitivity analysis — Market itself is never
mutated in place"; §4.6 Rho: "bump the entire yield curve by ±ε (in
percentage-point units ×100 to match input convention) and reprice") it
returns a freshly constructed Market whose entire yield curve is shifted
by the given amount in percentage points, leaving the original market
untouched. -/
noncomputable def Market.bump_flat_yield_curve (m : Market) (eps_fit : ℝ) : Market :=
  { rate_curve_pct := fun t => m.rate_curve_pct t + eps_fit }

/-- `MCPricingEngine.get_rho`.  The repricing of the fixed derivative under
a market (`get_stochastic_process` followed by `_get_price`) is abstracted
as `price : Market → ℝ`. -/
noncomputable def get_rho (price : Market → ℝ) (market : Market) (eps : ℝ) : ℝ :=
  let eps_fit := eps * 100
  let market_up := market.bump_flat_yield_curve eps_fit
  let market_down := market.bump_flat_yield_curve (-eps_fit)
  (price market_up - price market_down) / (2 * eps)

end MarketData

/-- C4: `get_rho` prices the derivative under two freshly bumped copies of
the market — the whole curve shifted by `±ε·100` percentage points, which
shifts every decimal rate returned by `Market.get_rate` by exactly `±ε` —
and returns the central difference `(price_up - price_down) / (2ε)`; the
base market's curve is left unchanged. -/
theorem get_rho_central_difference
    (price : MarketData.Market → ℝ) (m : MarketData.Market) (eps : ℝ) :
    MarketData.get_rho price m eps =
      (price (m.bump_flat_yield_curve (eps * 100))
        - price (m.bump_flat_yield_curve (-(eps * 100)))) / (2 * eps) ∧
    (∀ t, (m.bump_flat_yield_curve (eps * 100)).get_rate t = m.get_rate t + eps) ∧
    (∀ t, (m.bump_flat_yield_curve (-(eps * 100))).get_rate t = m.get_rate t - eps) ∧
    (∀ t, (m.bump_flat_yield_curve (eps * 100)).rate_curve_pct t
            = m.rate_curve_pct t + eps * 100) := by
  refine ⟨rfl, fun t => ?_, fun t => ?_, fun t => rfl⟩
  · simp only [MarketData.Market.bump_flat_yield_curve, MarketData.Market.get_rate]
    ring
  · simp only [MarketData.Market.bump_flat_yield_curve, MarketData.Market.get_rate]
    ring

namespace SVI

/-! ### SVI calibration objective
(src/kernel/market_data/volatility_surface/svi_surface.py) -/

structure SVIParams where
  a : ℝ
  b : ℝ
  rho : ℝ
  m : ℝ
  sigma : ℝ

/-- `SVIVolatilitySurface.svi_total_variance`:
`w(k) = a + b*(rho*(k - m) + sqrt((k - m)^2 + sigma^2))`. -/
noncomputable def svi_total_variance (k : ℝ) (p : SVIParams) : ℝ :=
  p.a + p.b * (p.rho * (k - p.m) + Real.sqrt ((k - p.m) ^ 2 + p.sigma ^ 2))

/-- `SVIVolatilitySurface.cost_function_svi`: the arrays of the slice are
`Fin n → ℝ`; the market total variance is `implied_vol² · maturity` and the
returned cost is `np.mean((SVI_total_variance - market_total_variance)²)`.
The `vega` argument is accepted (and documented as a weight) but does not
occur in the returned expression. -/
noncomputable def cost_function_svi {n : ℕ} (svi_params : SVIParams)
    (log_moneyness maturities market_implied_vol : Fin n → ℝ)
    (vega : Fin n → ℝ) : ℝ :=
  (∑ i, (svi_total_variance (log_moneyness i) svi_params
      - (market_implied_vol i) ^ 2 * maturities i) ^ 2) / n

/-- The objective the spec describes: the vega-WEIGHTED mean-squared error,
squared residuals multiplied by the Black-Scholes vegas.  Stated for
comparison with `cost_function_svi`, which embeds the source. -/
noncomputable def cost_function_svi_vega_weighted {n : ℕ} (svi_params : SVIParams)
    (log_moneyness maturities market_implied_vol : Fin n → ℝ)
    (vega : Fin n → ℝ) : ℝ :=
  (∑ i, vega i * (svi_total_variance (log_moneyness i) svi_params
      - (market_implied_vol i) ^ 2 * maturities i) ^ 2) / n

/-- Concrete slice for the weighting divergence: two points with log-
moneyness `1` and `0`, maturity `1`, market implied vol `0`, vegas `3`
and `1`; SVI parameters `a=0, b=1, rho=0, m=0, sigma=0`. -/
noncomputable def paramsC : SVIParams := { a := 0, b := 1, rho := 0, m := 0, sigma := 0 }

noncomputable def kC : Fin 2 → ℝ := ![1, 0]
noncomputable def matC : Fin 2 → ℝ := ![1, 1]
noncomputable def volC : Fin 2 → ℝ := ![0, 0]
noncomputable def vegaC : Fin 2 → ℝ := ![3, 1]

theorem svi_total_variance_kC_zero : svi_total_variance (kC 0) paramsC = 1 := by
  simp only [svi_total_variance, paramsC, kC]
  norm_num [Real.sqrt_one]

theorem svi_total_variance_kC_one : svi_total_variance (kC 1) paramsC = 0 := by
  simp only [svi_total_variance, paramsC, kC]
  norm_num [Real.sqrt_zero]

end SVI

/-- C5: the objective actually minimized per maturity slice,
`cost_function_svi`, is the UNWEIGHTED mean-squared error between SVI and
market total implied variance: the vega weights are accepted but ignored
(the cost is invariant under changing them), and on a concrete two-point
slice with vegas `(3, 1)` and residuals `(1, 0)` it returns the plain MSE
`1/2` where the vega-weighted MSE the spec (and the function's own
docstring) describe would return `3/2`. -/
theorem cost_function_svi_ignores_vega :
    (∀ (n : ℕ) (params : SVI.SVIParams) (k T vol vega vega' : Fin n → ℝ),
        SVI.cost_function_svi params k T vol vega
          = SVI.cost_function_svi params k T vol vega') ∧
    SVI.cost_function_svi SVI.paramsC SVI.kC SVI.matC SVI.volC SVI.vegaC = 1 / 2 ∧
    SVI.cost_function_svi_vega_weighted SVI.paramsC SVI.kC SVI.matC SVI.volC SVI.vegaC
      = 3 / 2 := by
  refine ⟨fun n params k T vol vega vega' => rfl, ?_, ?_⟩
  · simp only [SVI.cost_function_svi, Fin.sum_univ_two,
      SVI.svi_total_variance_kC_zero, SVI.svi_total_variance_kC_one]
    norm_num [SVI.matC, SVI.volC]
  · simp only [SVI.cost_function_svi_vega_weighted, Fin.sum_univ_two,
      SVI.svi_total_variance_kC_zero, SVI.svi_total_variance_kC_one]
    norm_num [SVI.matC, SVI.volC, SVI.vegaC]

namespace Vol

/-! ### Volatility surfaces: uncalibrated use
(src/kernel/market_data/volatility_surface/svi_surface.py and
src/kernel/market_data/volatility_surface/ssvi_surface.py)

The SVI surface's `interpolators` dict (one `interp1d` per parameter index)
is modelled as `Option (Fin 5 → ℝ → ℝ)`, `none` standing for the empty dict
set in `__init__`; the fitted per-maturity parameter dict as an association
list.  The SSVI parameter arrays are `Option` triples, `None` in
`__init__`. -/

structure SVIVolatilitySurface where
  svi_params_by_maturity : List (ℝ × SVI.SVIParams)
  interpolators : Option (Fin 5 → ℝ → ℝ)
  spot : ℝ

/-- `SVIVolatilitySurface.__init__`: no fitted parameters, empty
interpolators dict. -/
noncomputable def svi_init (spot : ℝ) : SVIVolatilitySurface :=
  { svi_params_by_maturity := [], interpolators := none, spot := spot }

/-- Smallest key of the fitted-parameter dict (junk `0` when empty; in the
source the dict is non-empty whenever `interpolators` is). -/
noncomputable def minKey (l : List (ℝ × SVI.SVIParams)) : ℝ :=
  match l.map Prod.fst with
  | [] => 0
  | x :: xs => xs.foldl min x

noncomputable def maxKey (l : List (ℝ × SVI.SVIParams)) : ℝ :=
  match l.map Prod.fst with
  | [] => 0
  | x :: xs => xs.foldl max x

/-- `self.svi_params_by_maturity[t]` (junk all-zero parameters when the key
is absent). -/
noncomputable def paramsAt (l : List (ℝ × SVI.SVIParams)) (t : ℝ) : SVI.SVIParams :=
  ((l.find? fun pr => decide (pr.1 = t)).map Prod.snd).getD
    { a := 0, b := 0, rho := 0, m := 0, sigma := 0 }

/-- `SVIVolatilitySurface.get_volatility`: raises if the interpolators dict
is empty; otherwise interpolates the five parameters at the maturity (flat
extrapolation outside the calibrated range), evaluates the SVI total
variance at the log-moneyness and returns `sqrt(w/T)`. -/
noncomputable def SVIVolatilitySurface.get_volatility (s : SVIVolatilitySurface)
    (strike maturity : ℝ) : Except String ℝ :=
  match s.interpolators with
  | none => .error "SVI surface not calibrated yet!"
  | some itp =>
      let min_maturity := minKey s.svi_params_by_maturity
      let max_maturity := maxKey s.svi_params_by_maturity
      let interpolated_params : SVI.SVIParams :=
        if maturity < min_maturity then paramsAt s.svi_params_by_maturity min_maturity
        else if maturity > max_maturity then paramsAt s.svi_params_by_maturity max_maturity
        else { a := itp 0 maturity, b := itp 1 maturity, rho := itp 2 maturity,
               m := itp 3 maturity, sigma := itp 4 maturity }
      let log_moneyness := Real.log (strike / s.spot)
      .ok (Real.sqrt (SVI.svi_total_variance log_moneyness interpolated_params / maturity))

structure SSVIVolatilitySurface where
  ssvi_params : Option (ℝ × ℝ × ℝ)
  ssvi_ATM_params : Option (ℝ × ℝ × ℝ)
  spot : ℝ

/-- `SSVIVolatilitySurface.__init__`: both parameter sets `None`. -/
noncomputable def ssvi_init (spot : ℝ) : SSVIVolatilitySurface :=
  { ssvi_params := none, ssvi_ATM_params := none, spot := spot }

/-- `SSVIVolatilitySurface._ssvi_atm_variance` with parameters
`[kappa, v0, v_inf]`. -/
noncomputable def ssvi_atm_variance (maturity : ℝ) (ps : ℝ × ℝ × ℝ) : ℝ :=
  let (kappa, v0, v_inf) := ps
  (((1 - Real.exp (-kappa * maturity)) / kappa * maturity) * (v0 - v_inf) + v_inf)
    * maturity

/-- `SSVIVolatilitySurface._get_atm_variance`: raises if the ATM stage has
not been calibrated. -/
noncomputable def SSVIVolatilitySurface.get_atm_variance (s : SSVIVolatilitySurface)
    (maturity : ℝ) : Except String ℝ :=
  match s.ssvi_ATM_params with
  | none => .error "SSVI ATM parameters are not calibrated. Please call calibrate_atm_variance() first."
  | some ps => .ok (ssvi_atm_variance maturity ps)

/-- `SSVIVolatilitySurface._ssvi_total_variance` with parameters
`[rho, eta, gamma]` and `phi(theta) = eta * theta^(-gamma)`. -/
noncomputable def ssvi_total_variance (k atm_variance : ℝ) (ps : ℝ × ℝ × ℝ) : ℝ :=
  let (rho, eta, gamma) := ps
  let phi := eta * atm_variance ^ (-gamma : ℝ)
  0.5 * atm_variance * (1 + rho * phi * k + Real.sqrt ((phi * k + rho) ^ 2 + (1 - rho ^ 2)))

/-- `SSVIVolatilitySurface.get_volatility`: raises if `ssvi_params is None`,
otherwise evaluates the SSVI total variance at the ATM-variance anchor and
returns `sqrt(w/T)/100`. -/
noncomputable def SSVIVolatilitySurface.get_volatility (s : SSVIVolatilitySurface)
    (strike maturity : ℝ) : Except String ℝ :=
  match s.ssvi_params with
  | none => .error "SSVI parameters are not calibrated. Please call calibrate_surface() first."
  | some ps => do
      let atm_variance ← s.get_atm_variance maturity
      let k := Real.log (strike / s.spot)
      .ok (Real.sqrt (ssvi_total_variance k atm_variance ps / maturity) / 100)

end Vol

/-- C7: querying volatility on an SVI or SSVI surface in its
freshly-constructed (uncalibrated) state fails with an explicit error for
every strike and maturity; no default volatility value is returned. -/
theorem get_volatility_uncalibrated_raises (spot strike maturity : ℝ) :
    (Vol.svi_init spot).get_volatility strike maturity
        = Except.error "SVI surface not calibrated yet!" ∧
    (Vol.ssvi_init spot).get_volatility strike maturity
        = Except.error "SSVI parameters are not calibrated. Please call calibrate_surface() first." :=
  ⟨rfl, rfl⟩

namespace Dupire

/-! ### Local volatility via Dupire
(src/kernel/market_data/volatility_surface/local_surface.py)

`get_volatility` computes `np.sqrt(max(numerator / denominator, 0))` from
finite-difference derivatives of the call-price surface.  The operands are
IEEE floats, so the division, Python's builtin `max` and `np.sqrt` are
modelled on a value type with `inf`, `-inf` and `NaN`: `x / 0` is `NaN`
for `x = 0` and `±inf` otherwise, `max(x, 0)` returns `0` only when
`0 > x` is True (so NaN propagates: comparisons against NaN are False),
and `np.sqrt` is `NaN` on NaN and on negative arguments. -/

inductive FloatVal where
  | fin (x : ℝ)
  | inf
  | neginf
  | nan

/-- IEEE division of two finite floats. -/
noncomputable def fdiv (num den : ℝ) : FloatVal :=
  if den ≠ 0 then .fin (num / den)
  else if num = 0 then .nan
  else if num > 0 then .inf
  else .neginf

/-- Python's `max(x, 0)`. -/
def pymaxZero : FloatVal → FloatVal
  | .fin x => .fin (max x 0)
  | .inf => .inf
  | .neginf => .fin 0
  | .nan => .nan

/-- `np.sqrt`. -/
noncomputable def fsqrt : FloatVal → FloatVal
  | .fin x => if x < 0 then .nan else .fin (Real.sqrt x)
  | .inf => .inf
  | .neginf => .nan
  | .nan => .nan

/-- The final computation of `LocalVolatilitySurface.get_volatility`, as a
function of the finite-difference derivatives returned by
`_compute_derivatives` and the decimal rate:
`numerator = dC_dT + r*strike*dC_dK`,
`denominator = 0.5*strike**2*d2C_dK2`,
result `np.sqrt(max(numerator / denominator, 0))`. -/
noncomputable def get_volatility_from_derivatives
    (dC_dK d2C_dK2 dC_dT r strike : ℝ) : FloatVal :=
  let numerator := dC_dT + r * strike * dC_dK
  let denominator := 0.5 * strike ^ 2 * d2C_dK2
  fsqrt (pymaxZero (fdiv numerator denominator))

end Dupire

/-- C8 counterexample: the zero-denominator case is NOT guarded.  When the
finite differences return `dC_dK = 0`, `d2C_dK2 = 0`, `dC_dT = 0` (rate
`0.05`, strike `100`), the denominator `0.5*K²*d²C/dK²` is `0`, the
division `0/0` yields NaN, Python's `max(NaN, 0)` keeps NaN and `np.sqrt`
returns NaN silently. -/
theorem local_vol_zero_denominator_nan :
    Dupire.get_volatility_from_derivatives 0 0 0 (5 / 100) 100
      = Dupire.FloatVal.nan := by
  unfold Dupire.get_volatility_from_derivatives
  norm_num [Dupire.fdiv, Dupire.pymaxZero, Dupire.fsqrt]

/-- C8 (amended): whenever the denominator `0.5*K²*d²C/dK²` is non-zero,
`get_volatility` clamps the Dupire variance ratio to `0` before the square
root, so the square root is applied to the non-negative
`max(numerator/denominator, 0)` and never to a negative number; but the
zero-denominator case is not guarded and `0/0` propagates NaN. -/
theorem local_vol_clamps_ratio_before_sqrt
    (dC_dK d2C_dK2 dC_dT r strike : ℝ)
    (h : 0.5 * strike ^ 2 * d2C_dK2 ≠ 0) :
    Dupire.get_volatility_from_derivatives dC_dK d2C_dK2 dC_dT r strike
      = Dupire.FloatVal.fin
          (Real.sqrt (max ((dC_dT + r * strike * dC_dK)
              / (0.5 * strike ^ 2 * d2C_dK2)) 0)) ∧
    0 ≤ max ((dC_dT + r * strike * dC_dK) / (0.5 * strike ^ 2 * d2C_dK2)) 0 := by
  refine ⟨?_, le_max_right _ _⟩
  simp only [Dupire.get_volatility_from_derivatives, Dupire.fdiv]
  rw [if_pos h]
  simp only [Dupire.pymaxZero, Dupire.fsqrt]
  rw [if_neg (not_lt.mpr (le_max_right _ _))]

/-- Witness for the amended C8: `d²C/dK² = 1`, strike `1`, the other
derivatives `0`: the result is `sqrt(max(0, 0)) = 0`, computed through the
clamp. -/
theorem local_vol_clamps_ratio_before_sqrt_witness :
    (0.5 * (1:ℝ) ^ 2 * 1 ≠ 0) ∧
    Dupire.get_volatility_from_derivatives 0 1 0 (5 / 100) 1
      = Dupire.FloatVal.fin
          (Real.sqrt (max (((0:ℝ) + 5 / 100 * 1 * 0) / (0.5 * 1 ^ 2 * 1)) 0)) :=
  ⟨by norm_num,
    (local_vol_clamps_ratio_before_sqrt 0 1 0 (5 / 100) 1 (by norm_num)).1⟩

namespace BlackScholes

/-! ### Black-Scholes process and Euler scheme
(src/kernel/models/stochastic_processes/black_scholes_process.py and
src/kernel/models/discritization_schemes/euler_scheme.py)

`np.random.default_rng(seed).standard_normal((nb_paths, nb_steps))` is a
deterministic function of the seed; it is abstracted as a seed-indexed
stream `gen : seed → path → step → ℝ`, the only source of randomness the
code consumes. -/

structure BlackScholesProcess where
  S0 : ℝ
  T : ℝ
  nb_steps : ℕ
  drift : ℕ → ℝ
  diffusion : ℝ

noncomputable def BlackScholesProcess.dt (proc : BlackScholesProcess) : ℝ :=
  proc.T / proc.nb_steps

/-- `BlackScholesProcess.get_random_increments`: `Z * np.sqrt(dt)` with
`Z = default_rng(seed).standard_normal((nb_paths, nb_steps))`. -/
noncomputable def get_random_increments (gen : ℕ → ℕ → ℕ → ℝ)
    (proc : BlackScholesProcess) (nb_paths : ℕ) (seed : ℕ) :
    Fin nb_paths → ℕ → ℝ :=
  fun p j => gen seed p.val j * Real.sqrt proc.dt

/-- `EulerScheme.simulate_paths`: `S[:, 0] = S0` and
`S[:, i] = S[:, i-1] * exp((mu[i-1] - 0.5*sigma**2)*dt + sigma*W[:, i-1])`. -/
noncomputable def simulate_paths (gen : ℕ → ℕ → ℕ → ℝ)
    (proc : BlackScholesProcess) (nb_paths : ℕ) (seed : ℕ) :
    ℕ → Fin nb_paths → ℝ
  | 0 => fun _ => proc.S0
  | i + 1 => fun p =>
      simulate_paths gen proc nb_paths seed i p
        * Real.exp ((proc.drift i - 0.5 * proc.diffusion ^ 2) * proc.dt
            + proc.diffusion * get_random_increments gen proc nb_paths seed p i)

/-- Concrete process for the determinism witness. -/
noncomputable def procW : BlackScholesProcess :=
  { S0 := 100, T := 1, nb_steps := 4, drift := fun _ => 5 / 100, diffusion := 1 / 5 }

/-- A concrete deterministic stream standing for the seeded generator. -/
noncomputable def genW : ℕ → ℕ → ℕ → ℝ := fun seed p j => (seed + p + j : ℕ)

end BlackScholes

/-- C9: the simulation output is a function of the process parameters, the
path count and the seeded generator stream alone: if two generator
environments agree on the stream at the seed used, the random increments
and the whole path array coincide entry for entry — in particular two runs
with identical parameters and identical seed produce identical increments
and identical paths. -/
theorem seeded_simulation_deterministic
    (gen1 gen2 : ℕ → ℕ → ℕ → ℝ) (proc : BlackScholes.BlackScholesProcess)
    (nb_paths seed : ℕ)
    (h : ∀ p j, gen1 seed p j = gen2 seed p j) :
    BlackScholes.get_random_increments gen1 proc nb_paths seed
      = BlackScholes.get_random_increments gen2 proc nb_paths seed ∧
    ∀ (i : ℕ) (p : Fin nb_paths),
      BlackScholes.simulate_paths gen1 proc nb_paths seed i p
        = BlackScholes.simulate_paths gen2 proc nb_paths seed i p := by
  have hw : BlackScholes.get_random_increments gen1 proc nb_paths seed
      = BlackScholes.get_random_increments gen2 proc nb_paths seed := by
    funext p j
    unfold BlackScholes.get_random_increments
    rw [h p.val j]
  refine ⟨hw, ?_⟩
  intro i
  induction i with
  | zero => intro p; rfl
  | succ n ih =>
      intro p
      show BlackScholes.simulate_paths gen1 proc nb_paths seed n p * _
        = BlackScholes.simulate_paths gen2 proc nb_paths seed n p * _
      rw [ih p, hw]

/-- Witness for C9 at a concrete generator stream, process, path count `2`
and seed `4012`. -/
theorem seeded_simulation_deterministic_witness :
    BlackScholes.get_random_increments BlackScholes.genW BlackScholes.procW 2 4012
      = BlackScholes.get_random_increments BlackScholes.genW BlackScholes.procW 2 4012 ∧
    ∀ (i : ℕ) (p : Fin 2),
      BlackScholes.simulate_paths BlackScholes.genW BlackScholes.procW 2 4012 i p
        = BlackScholes.simulate_paths BlackScholes.genW BlackScholes.procW 2 4012 i p :=
  seeded_simulation_deterministic BlackScholes.genW BlackScholes.genW
    BlackScholes.procW 2 4012 (fun _ _ => rfl)
